import Mathlib

/-!
Verification development for the green-search-app repository.

The file shallowly embeds the algorithmic core of the application:
  * the LaTeX-to-Unicode text normalizer `cleanMathAndFormat`
    (two variants: one in `components/QuizGame.tsx`, one in the
    result-display module),
  * the inline markup splitter `parseInline` and the line-oriented
    block renderer `renderContent` of the result-display module,
  * the quiz-session state machine of `components/QuizGame.tsx`
    (answer selection, submission, navigation, finishing, the timer
    tick, retake-all / retake-wrong, and the save-on-finish effect),
  * the quiz-start error handling of the application shell.

Strings are modelled as `List Char` internally (wrapped to `String` at
the boundaries).  JavaScript `string.replace(regex, ...)` with a global
flag scans left to right without rescanning replacement output; the
generic `scanRewrite` fuel-bounded scanner below reproduces exactly that
discipline, with one matcher per regular expression of the source.
-/

/-- Left brace character, written via its code point. -/
def lbrace : Char := Char.ofNat 123

/-- Right brace character, written via its code point. -/
def rbrace : Char := Char.ofNat 125

/-- Backslash character. -/
def bslash : Char := '\\'

/-- JavaScript regex `.` (no `s` flag): any char except LF, CR, U+2028, U+2029. -/
def isDotChar (c : Char) : Bool :=
  c ≠ '\n' && c ≠ '\r' && c ≠ Char.ofNat 0x2028 && c ≠ Char.ofNat 0x2029

/-- JavaScript regex `\s`: whitespace class used by `trim`, `\s*` and blank tests. -/
def isSpaceJs (c : Char) : Bool :=
  c = ' ' || c = '\t' || c = '\n' || c = Char.ofNat 11 || c = Char.ofNat 12 ||
  c = '\r' || c = Char.ofNat 0xa0 || c = Char.ofNat 0x1680 ||
  (0x2000 ≤ c.toNat && c.toNat ≤ 0x200a) ||
  c = Char.ofNat 0x2028 || c = Char.ofNat 0x2029 || c = Char.ofNat 0x202f ||
  c = Char.ofNat 0x205f || c = Char.ofNat 0x3000 || c = Char.ofNat 0xfeff

/-- Does `l` start with `pre`?  On success, return the remainder after `pre`. -/
def dropPre : List Char → List Char → Option (List Char)
  | [], l => some l
  | _ :: _, [] => none
  | p :: ps, c :: cs => if c = p then dropPre ps cs else none

/-- Boolean prefix test built on `dropPre`. -/
def startsWithL (pre l : List Char) : Bool := (dropPre pre l).isSome

/-- Boolean suffix test (JS `endsWith`). -/
def endsWithL (suf l : List Char) : Bool := startsWithL suf.reverse l.reverse

/-- Generic left-to-right rewriting scanner.  At each position, `f` either
matches (returning the replacement output and the rest of the input after the
match, having consumed at least one character) or fails, in which case the
current character is copied verbatim.  Replacement output is never rescanned,
matching JS `String.replace` with a global regex.  The fuel is an upper bound
on the number of steps; callers pass the input length, which suffices because
every step consumes at least one input character. -/
def scanRewrite (f : List Char → Option (List Char × List Char)) :
    Nat → List Char → List Char
  | 0, l => l
  | _ + 1, [] => []
  | n + 1, c :: rest =>
    match f (c :: rest) with
    | some (out, rest2) => out ++ scanRewrite f n rest2
    | none => c :: scanRewrite f n rest

/-- Run `scanRewrite` with fuel equal to the input length. -/
def runScan (f : List Char → Option (List Char × List Char)) (l : List Char) :
    List Char :=
  scanRewrite f l.length l

/-- Matcher for a literal pattern, replaced by a literal output. -/
def matchLit (pat repl : List Char) (l : List Char) :
    Option (List Char × List Char) :=
  (dropPre pat l).map (fun r => (repl, r))

/-- Replace every occurrence of the literal `pat` by `repl` (JS
`replace(/pat/g, repl)` for a literal pattern). -/
def replaceLit (pat repl : String) (l : List Char) : List Char :=
  runScan (matchLit pat.data repl.data) l

/-- Character class membership given as a string of its members. -/
def memClass (s : String) (c : Char) : Bool := s.data.contains c

/-- Greedy nonempty run of characters of a class: regex `[class]+`. -/
def classRun (p : Char → Bool) (l : List Char) :
    Option (List Char × List Char) :=
  let content := l.takeWhile p
  if content.isEmpty then none else some (content, l.dropWhile p)

/-- Not a brace: the class `[^{}]` of the source regexes. -/
def notBrace (c : Char) : Bool := c ≠ lbrace && c ≠ rbrace

/-- Parse `[^{}]+` followed by a closing brace; return content and remainder. -/
def argUntilRb (l : List Char) : Option (List Char × List Char) :=
  let content := l.takeWhile notBrace
  if content.isEmpty then none
  else
    match l.dropWhile notBrace with
    | c :: rest2 => if c = rbrace then some (content, rest2) else none
    | [] => none

/-- Parse `[^}]+` followed by a closing brace (the class of the
`\text{..}`-style cleanups, which admits an opening brace inside). -/
def argUntilRbAny (l : List Char) : Option (List Char × List Char) :=
  let content := l.takeWhile (fun c => c ≠ rbrace)
  if content.isEmpty then none
  else
    match l.dropWhile (fun c => c ≠ rbrace) with
    | c :: rest2 => if c = rbrace then some (content, rest2) else none
    | [] => none

/-- Matcher for `\frac{A}{B}` → `(A/B)` with `A`, `B` matching `[^{}]+`. -/
def matchFrac (l : List Char) : Option (List Char × List Char) :=
  match dropPre ((bslash :: ("frac").data) ++ [lbrace]) l with
  | none => none
  | some r1 =>
    match argUntilRb r1 with
    | none => none
    | some (a, r2) =>
      match r2 with
      | c :: r3 =>
        if c = lbrace then
          match argUntilRb r3 with
          | none => none
          | some (b, r4) => some ((('(' :: a) ++ ('/' :: b)) ++ [')'], r4)
        else none
      | [] => none

/-- Table lookup with identity fallback (the source's `table[c] || c`). -/
def mapTable (t : List (Char × Char)) (c : Char) : Char :=
  match t.find? (fun p => p.1 = c) with
  | some p => p.2
  | none => c

/-- Matcher for `mark{content}` where content matches `cls`⁺, each character
mapped through table `t` (regexes like `\^\{([^{}]+)\}`). -/
def matchMarkBraced (mark : Char) (cls : Char → Bool) (t : List (Char × Char))
    (l : List Char) : Option (List Char × List Char) :=
  match dropPre [mark, lbrace] l with
  | none => none
  | some r =>
    match classRun cls r with
    | none => none
    | some (content, r2) =>
      match r2 with
      | c :: r3 =>
        if c = rbrace then some (content.map (mapTable t), r3) else none
      | [] => none

/-- Matcher for `mark` followed by a single class character
(regexes like `\^([0-9+\-()nxyz])`). -/
def matchMark1 (mark : Char) (cls : Char → Bool) (t : List (Char × Char))
    (l : List Char) : Option (List Char × List Char) :=
  match l with
  | m :: c :: rest =>
    if m = mark ∧ cls c then some ([mapTable t c], rest) else none
  | _ => none

/-- Matcher for `mark` followed by a greedy nonempty class run
(regexes like `\^([0-9+\-()nx]+)`). -/
def matchMarkRun (mark : Char) (cls : Char → Bool) (t : List (Char × Char))
    (l : List Char) : Option (List Char × List Char) :=
  match l with
  | m :: rest =>
    if m = mark then
      match classRun cls rest with
      | some (content, r2) => some (content.map (mapTable t), r2)
      | none => none
    else none
  | [] => none

/-- Matcher for `\key{content}` → `content`, with content matching `[^}]+`
(the `\text` / `\mathbf` / `\mathit` / `\mathrm` cleanups). -/
def matchCmd (key : String) (l : List Char) : Option (List Char × List Char) :=
  match dropPre ((bslash :: key.data) ++ [lbrace]) l with
  | none => none
  | some r => argUntilRbAny r

namespace QuizGame

/-- Superscript table of `components/QuizGame.tsx` (`supers`). -/
def supers : List (Char × Char) :=
  [('0', '⁰'), ('1', '¹'), ('2', '²'), ('3', '³'), ('4', '⁴'), ('5', '⁵'),
   ('6', '⁶'), ('7', '⁷'), ('8', '⁸'), ('9', '⁹'),
   ('+', '⁺'), ('-', '⁻'), ('=', '⁼'), ('(', '⁽'), (')', '⁾'),
   ('n', 'ⁿ'), ('x', 'ˣ'), ('y', 'ʸ'), ('z', 'ᶻ')]

/-- Subscript table of `components/QuizGame.tsx` (`subs`). -/
def subs : List (Char × Char) :=
  [('0', '₀'), ('1', '₁'), ('2', '₂'), ('3', '₃'), ('4', '₄'), ('5', '₅'),
   ('6', '₆'), ('7', '₇'), ('8', '₈'), ('9', '₉'),
   ('+', '₊'), ('-', '₋'), ('=', '₌'), ('(', '₍'), (')', '₎'),
   ('a', 'ₐ'), ('e', 'ₑ'), ('x', 'ₓ')]

/-- Symbol replacement table of `components/QuizGame.tsx`, in source order. -/
def symbolTable : List (String × String) :=
  [("\\times", "×"), ("\\div", "÷"), ("\\cdot", "·"), ("\\pm", "±"),
   ("\\mp", "∓"), ("\\approx", "≈"), ("\\neq", "≠"), ("\\leq", "≤"),
   ("\\geq", "≥"), ("\\infty", "∞"), ("\\rightarrow", "→"),
   ("\\leftarrow", "←"), ("\\leftrightarrow", "↔"), ("\\Rightarrow", "⇒"),
   ("\\forall", "∀"), ("\\exists", "∃"), ("\\in", "∈"), ("\\notin", "∉"),
   ("\\subset", "⊂"), ("\\subseteq", "⊆"), ("\\cup", "∪"), ("\\cap", "∩"),
   ("\\alpha", "α"), ("\\beta", "β"), ("\\gamma", "γ"), ("\\delta", "δ"),
   ("\\epsilon", "ε"), ("\\zeta", "ζ"), ("\\eta", "η"), ("\\theta", "θ"),
   ("\\lambda", "λ"), ("\\mu", "μ"), ("\\nu", "ν"), ("\\xi", "ξ"),
   ("\\pi", "π"), ("\\rho", "ρ"), ("\\sigma", "σ"), ("\\tau", "τ"),
   ("\\phi", "φ"), ("\\chi", "χ"), ("\\psi", "ψ"), ("\\omega", "ω"),
   ("\\Delta", "Δ"), ("\\Sigma", "Σ"), ("\\Omega", "Ω"),
   ("\\sqrt", "√"), ("\\circ", "°"), ("\\angle", "∠")]

/-- The text normalizer `cleanMathAndFormat` of `components/QuizGame.tsx`,
pass for pass in source order: strip dollars; rewrite fractions; braced then
single-character superscripts; braced then single-character subscripts; strip
the four text-style commands; then the literal symbol table. -/
def cleanMathAndFormat (text : String) : String :=
  let s0 := text.data.filter (fun c => c ≠ '$')
  let s1 := runScan matchFrac s0
  let s2 := runScan (matchMarkBraced '^' notBrace supers) s1
  let s3 := runScan (matchMark1 '^' (memClass ("0123456789+-()nxyz")) supers) s2
  let s4 := runScan (matchMarkBraced '_' notBrace subs) s3
  let s5 := runScan (matchMark1 '_' (memClass ("0123456789+-()aex")) subs) s4
  let s6 := runScan (matchCmd ("text")) s5
  let s7 := runScan (matchCmd ("mathbf")) s6
  let s8 := runScan (matchCmd ("mathit")) s7
  let s9 := runScan (matchCmd ("mathrm")) s8
  ⟨symbolTable.foldl (fun acc p => replaceLit p.1 p.2 acc) s9⟩

end QuizGame

namespace ResultDisplay

/-- Superscript table of the result-display module: as in the quiz module but
without `=`, `y`, `z`. -/
def supers : List (Char × Char) :=
  [('0', '⁰'), ('1', '¹'), ('2', '²'), ('3', '³'), ('4', '⁴'), ('5', '⁵'),
   ('6', '⁶'), ('7', '⁷'), ('8', '⁸'), ('9', '⁹'),
   ('+', '⁺'), ('-', '⁻'), ('(', '⁽'), (')', '⁾'), ('n', 'ⁿ'), ('x', 'ˣ')]

/-- Subscript table of the result-display module.  Note the source quirk,
reproduced here: `+` and `-` map to the superscript glyphs. -/
def subs : List (Char × Char) :=
  [('0', '₀'), ('1', '₁'), ('2', '₂'), ('3', '₃'), ('4', '₄'), ('5', '₅'),
   ('6', '₆'), ('7', '₇'), ('8', '₈'), ('9', '₉'),
   ('+', '⁺'), ('-', '⁻'), ('(', '₍'), (')', '₎'),
   ('a', 'ₐ'), ('e', 'ₑ'), ('o', 'ₒ'), ('x', 'ₓ')]

/-- Symbol replacement table of the result-display module, in source order
(same as the quiz module's without `\circ` and `\angle`). -/
def symbolTable : List (String × String) :=
  [("\\times", "×"), ("\\div", "÷"), ("\\cdot", "·"), ("\\pm", "±"),
   ("\\mp", "∓"), ("\\approx", "≈"), ("\\neq", "≠"), ("\\leq", "≤"),
   ("\\geq", "≥"), ("\\infty", "∞"), ("\\rightarrow", "→"),
   ("\\leftarrow", "←"), ("\\leftrightarrow", "↔"), ("\\Rightarrow", "⇒"),
   ("\\forall", "∀"), ("\\exists", "∃"), ("\\in", "∈"), ("\\notin", "∉"),
   ("\\subset", "⊂"), ("\\subseteq", "⊆"), ("\\cup", "∪"), ("\\cap", "∩"),
   ("\\alpha", "α"), ("\\beta", "β"), ("\\gamma", "γ"), ("\\delta", "δ"),
   ("\\epsilon", "ε"), ("\\zeta", "ζ"), ("\\eta", "η"), ("\\theta", "θ"),
   ("\\lambda", "λ"), ("\\mu", "μ"), ("\\nu", "ν"), ("\\xi", "ξ"),
   ("\\pi", "π"), ("\\rho", "ρ"), ("\\sigma", "σ"), ("\\tau", "τ"),
   ("\\phi", "φ"), ("\\chi", "χ"), ("\\psi", "ψ"), ("\\omega", "ω"),
   ("\\Delta", "Δ"), ("\\Sigma", "Σ"), ("\\Omega", "Ω"), ("\\sqrt", "√")]

/-- The text normalizer `cleanMathAndFormat` of the result-display module.
It differs from the quiz module's: the single/run superscript pass comes
before the braced one, both use the explicit character class (with `+`
repetition), the subscript class adds `o`, and there is no `\mathrm` pass. -/
def cleanMathAndFormat (text : String) : String :=
  let s0 := text.data.filter (fun c => c ≠ '$')
  let s1 := runScan matchFrac s0
  let s2 := runScan (matchMarkRun '^' (memClass ("0123456789+-()nx")) supers) s1
  let s3 := runScan (matchMarkBraced '^' (memClass ("0123456789+-()nx")) supers) s2
  let s4 := runScan (matchMarkRun '_' (memClass ("0123456789+-()aeox")) subs) s3
  let s5 := runScan (matchMarkBraced '_' (memClass ("0123456789+-()aeox")) subs) s4
  let s6 := runScan (matchCmd ("text")) s5
  let s7 := runScan (matchCmd ("mathbf")) s6
  let s8 := runScan (matchCmd ("mathit")) s7
  ⟨symbolTable.foldl (fun acc p => replaceLit p.1 p.2 acc) s8⟩

/-- Lazy scan of `.*?\*\*`: content up to the first `**`, dot chars only. -/
def splitAtStars2 : List Char → Option (List Char × List Char)
  | a :: b :: rest =>
    if a = '*' ∧ b = '*' then some ([], rest)
    else if isDotChar a then
      match splitAtStars2 (b :: rest) with
      | some (pre, post) => some (a :: pre, post)
      | none => none
    else none
  | _ => none

/-- Lazy scan of `.*?\*`: content up to the first `*`, dot chars only. -/
def splitAtStar1 : List Char → Option (List Char × List Char)
  | [] => none
  | a :: rest =>
    if a = '*' then some ([], rest)
    else if isDotChar a then
      match splitAtStar1 rest with
      | some (pre, post) => some (a :: pre, post)
      | none => none
    else none

/-- Matcher for the first split alternative `\*\*.*?\*\*`; returns the whole
matched token and the remainder. -/
def matchBold (l : List Char) : Option (List Char × List Char) :=
  match dropPre ['*', '*'] l with
  | none => none
  | some r =>
    match splitAtStars2 r with
    | some (content, rest) =>
      some ((('*' :: '*' :: content) ++ ['*', '*']), rest)
    | none => none

/-- Matcher for the second split alternative `\*.*?\*`. -/
def matchItal (l : List Char) : Option (List Char × List Char) :=
  match l with
  | c :: r =>
    if c = '*' then
      match splitAtStar1 r with
      | some (content, rest) => some (('*' :: content) ++ ['*'], rest)
      | none => none
    else none
  | [] => none

/-- Tail of the citation regex after the leading digits:
`(?:,\s*\d+)*\]`.  Returns the consumed characters (including the closing
bracket) and the remainder.  Fuel-bounded; each round consumes at least two
characters. -/
def matchCitTail : Nat → List Char → Option (List Char × List Char)
  | _, [] => none
  | 0, _ => none
  | fuel + 1, c :: rest =>
    if c = ']' then some ([']'], rest)
    else if c = ',' then
      let sp := rest.takeWhile isSpaceJs
      let r2 := rest.dropWhile isSpaceJs
      match classRun Char.isDigit r2 with
      | none => none
      | some (ds, r3) =>
        match matchCitTail fuel r3 with
        | some (consumed, r4) => some ((((c :: sp) ++ ds) ++ consumed), r4)
        | none => none
    else none

/-- Matcher for the third split alternative `\[\d+(?:,\s*\d+)*\]`. -/
def matchCit (l : List Char) : Option (List Char × List Char) :=
  match l with
  | c :: rest =>
    if c = '[' then
      match classRun Char.isDigit rest with
      | none => none
      | some (ds, r2) =>
        match matchCitTail r2.length r2 with
        | some (consumed, r3) => some (((c :: ds) ++ consumed), r3)
        | none => none
    else none
  | [] => none

/-- The three split alternatives in the source's priority order. -/
def tryTok (l : List Char) : Option (List Char × List Char) :=
  match matchBold l with
  | some r => some r
  | none =>
    match matchItal l with
    | some r => some r
    | none => matchCit l

/-- `String.split` with a capturing regex: segments and separators
interleaved, including empty segments where a match abuts another match or a
string boundary.  Fuel-bounded; each step consumes at least one character. -/
def splitGo : Nat → List Char → List Char → List (List Char)
  | 0, acc, l => [acc.reverse ++ l]
  | _ + 1, acc, [] => [acc.reverse]
  | n + 1, acc, c :: rest =>
    match tryTok (c :: rest) with
    | some (tok, rest2) => acc.reverse :: tok :: splitGo n [] rest2
    | none => splitGo n (c :: acc) rest

/-- The parts array produced by
`text.split(/(\*\*.*?\*\*|\*.*?\*|\[\d+(?:,\s*\d+)*\])/g)`. -/
def splitTokens (l : List Char) : List (List Char) := splitGo l.length [] l

/-- Inline span, the rendered form of one part: `<strong>`, `<em>`, the
`<sup>` citation, or a plain text node. -/
inductive Span where
  | strong (s : String)
  | em (s : String)
  | citation (s : String)
  | plain (s : String)
deriving DecidableEq

/-- JS `slice(a, -b)` on a string of characters. -/
def sliceDrop (a b : Nat) (l : List Char) : List Char :=
  (l.drop a).take (l.length - b - a)

/-- Does the whole part match the anchored citation test
`/^\[\d+(?:,\s*\d+)*\]$/`? -/
def isCitationFull (p : List Char) : Bool :=
  match matchCit p with
  | some (_, rest) => rest.isEmpty
  | none => false

/-- The per-part classification of `parseInline`: the bold test, then the
italic test (requiring length > 2), then the citation test, else plain. -/
def classifySpan (p : List Char) : Span :=
  if startsWithL ['*', '*'] p ∧ endsWithL ['*', '*'] p then
    Span.strong ⟨sliceDrop 2 2 p⟩
  else if startsWithL ['*'] p ∧ endsWithL ['*'] p ∧ 2 < p.length then
    Span.em ⟨sliceDrop 1 1 p⟩
  else if isCitationFull p then Span.citation ⟨p⟩
  else Span.plain ⟨p⟩

/-- `parseInline` on a list of characters. -/
def parseInlineL (l : List Char) : List Span :=
  (splitTokens l).map classifySpan

/-- The `parseInline` function of the result-display module: split on the
bold/italic/citation alternation, then map each part to its span. -/
def parseInline (text : String) : List Span :=
  parseInlineL text.data

end ResultDisplay

namespace ResultDisplay

/-- Block element emitted by `renderContent`: heading with its level, a
paragraph, a list (`ordered = true` for `<ol>`) of inline-parsed items, or
the visual break emitted for interior blank lines. -/
inductive Block where
  | heading (level : Nat) (content : List Span)
  | paragraph (content : List Span)
  | listBlock (ordered : Bool) (items : List (List Span))
  | lineBreak
deriving DecidableEq

/-- Accumulator of the line scan: emitted elements, the pending list items,
and the pending list type (`some true` = ordered). -/
structure RenderSt where
  elements : List Block
  currentList : List (List Span)
  listType : Option Bool
deriving DecidableEq

/-- The `flushList` helper: if items are pending and a list type is set,
emit the pending list and clear the accumulator. -/
def flushList (st : RenderSt) : RenderSt :=
  if ¬ st.currentList.isEmpty ∧ st.listType.isSome then
    { elements := st.elements ++ [Block.listBlock (st.listType.getD false) st.currentList],
      currentList := [], listType := none }
  else st

/-- JS `String.trim` (strips the `\s` class at both ends). -/
def trimJs (l : List Char) : List Char :=
  ((l.dropWhile isSpaceJs).reverse.dropWhile isSpaceJs).reverse

/-- The ordered-list marker `/^\d+\.\s/`: on success, the line content with
the marker (digits, dot, one whitespace character) removed. -/
def olStrip (l : List Char) : Option (List Char) :=
  match classRun Char.isDigit l with
  | none => none
  | some (_, r) =>
    match r with
    | c :: r2 =>
      if c = '.' then
        match r2 with
        | d :: r3 => if isSpaceJs d then some r3 else none
        | [] => none
      else none
    | [] => none

/-- One iteration of the line loop of `renderContent`: blank lines flush and
(away from the extremes) emit a break; `# `/`## `/`### ` emit headings; list
markers accumulate items, flushing first when the list type changes; anything
else is a paragraph. -/
def renderLine (total : Nat) (st : RenderSt) (pair : Nat × List Char) :
    RenderSt :=
  let idx := pair.1
  let t := trimJs pair.2
  if t.isEmpty then
    let st2 := flushList st
    if 0 < idx ∧ idx < total - 1 then
      { st2 with elements := st2.elements ++ [Block.lineBreak] }
    else st2
  else if startsWithL (("# ").data) t then
    let st2 := flushList st
    { st2 with elements := st2.elements ++ [Block.heading 1 (parseInlineL (t.drop 2))] }
  else if startsWithL (("## ").data) t then
    let st2 := flushList st
    { st2 with elements := st2.elements ++ [Block.heading 2 (parseInlineL (t.drop 3))] }
  else if startsWithL (("### ").data) t then
    let st2 := flushList st
    { st2 with elements := st2.elements ++ [Block.heading 3 (parseInlineL (t.drop 4))] }
  else
    let isUl := startsWithL (("- ").data) t || startsWithL (("* ").data) t
    let olContent := olStrip t
    if isUl ∨ olContent.isSome then
      let lt : Bool := !isUl
      let st2 :=
        if st.listType ≠ none ∧ st.listType ≠ some lt then flushList st else st
      let content := if isUl then t.drop 2 else olContent.getD []
      { st2 with listType := some lt,
                 currentList := st2.currentList ++ [parseInlineL content] }
    else
      let st2 := flushList st
      { st2 with elements := st2.elements ++ [Block.paragraph (parseInlineL t)] }

/-- Split on newline characters, keeping empty segments (JS `split('\n')`). -/
def splitNl : List Char → List (List Char)
  | [] => [[]]
  | c :: rest =>
    if c = '\n' then [] :: splitNl rest
    else
      match splitNl rest with
      | seg :: segs => (c :: seg) :: segs
      | [] => [[c]]

/-- The `renderContent` function of the result-display module: normalize the
text, canonicalize line endings, split into lines, run the stateful line
scan, and flush any trailing list. -/
def renderContent (text : String) : List Block :=
  let cleanText := runScan (matchLit ['\r', '\n'] ['\n']) (cleanMathAndFormat text).data
  let lines := splitNl cleanText
  let final := lines.enum.foldl (renderLine lines.length) ⟨[], [], none⟩
  (flushList final).elements

end ResultDisplay

/-- A quiz question (`QuizQuestion` of `types.ts`). -/
structure Question where
  question : String
  options : List String
  answerIndex : Nat
  explanation : String
deriving DecidableEq

instance : Inhabited Question := ⟨⟨"", [], 0, ""⟩⟩

/-- Exam style tag (`ExamStyle` of `types.ts`). -/
inductive ExamStyle where
  | SAT1 | EST1 | ACT1 | EST2 | ACT2 | Custom
deriving DecidableEq

/-- Difficulty tag (`Difficulty` of `types.ts`). -/
inductive Difficulty where
  | Mixed | Medium | Hard
deriving DecidableEq

/-- Quiz configuration (`QuizConfig` of `types.ts`). -/
structure QuizConfig where
  topic : String
  questionCount : Nat
  examStyle : ExamStyle
  difficulty : Difficulty
  timerEnabled : Bool
deriving DecidableEq

namespace QuizGame

/-- The state owned by the `QuizGame` component.  `initialQuestions` is the
`questions` prop (constant for a session), `hasSaved` is `hasSavedRef.current`,
and `persistCount` counts the invocations of the `onComplete` callback (the
persist step), which the component itself never reads. -/
structure QState where
  initialQuestions : List Question
  config : QuizConfig
  activeQuestions : List Question
  currentIndex : Nat
  userAnswers : List (Option Nat)
  submittedStatus : List Bool
  timeLeft : Nat
  isFinished : Bool
  hasSaved : Bool
  persistCount : Nat
deriving DecidableEq

/-- Initial state when mounting without `initialUserAnswers`. -/
def startFresh (qs : List Question) (config : QuizConfig) : QState :=
  { initialQuestions := qs
    config := config
    activeQuestions := qs
    currentIndex := 0
    userAnswers := List.replicate qs.length none
    submittedStatus := List.replicate qs.length false
    timeLeft := qs.length * 90
    isFinished := false
    hasSaved := false
    persistCount := 0 }

/-- Initial state when mounting with `initialUserAnswers` (a session restored
from a history record): answers prefilled, every question marked submitted,
finished immediately, and the save guard pre-set. -/
def startRestored (qs : List Question) (config : QuizConfig)
    (ans : List (Option Nat)) : QState :=
  { initialQuestions := qs
    config := config
    activeQuestions := qs
    currentIndex := 0
    userAnswers := ans
    submittedStatus := List.replicate qs.length true
    timeLeft := qs.length * 90
    isFinished := true
    hasSaved := true
    persistCount := 0 }

/-- `calculateScore`: fold over the answers, adding one whenever the answer
equals the question's `answerIndex`.  The source closes over
`activeQuestions` and reads `activeQuestions[idx]`; under the session's
length invariant this is the pointwise zip used here.  An unanswered slot is
`none` and never equals `some _`. -/
def calculateScore (activeQuestions : List Question)
    (answers : List (Option Nat)) : Nat :=
  (answers.zip activeQuestions).foldl
    (fun acc p => if p.1 = some p.2.answerIndex then acc + 1 else acc) 0

/-- `handleOptionSelect`: ignored when the current question is submitted
(an out-of-range `submittedStatus[currentIndex]` is `undefined`, falsy);
otherwise store the selection at `currentIndex`. -/
def handleOptionSelect (i : Nat) (s : QState) : QState :=
  if s.submittedStatus.getD s.currentIndex false then s
  else { s with userAnswers := s.userAnswers.set s.currentIndex (some i) }

/-- `handleSubmitQuestion`: ignored when the current slot is exactly `null`;
otherwise mark the current question submitted. -/
def handleSubmitQuestion (s : QState) : QState :=
  if s.userAnswers.get? s.currentIndex = some none then s
  else { s with submittedStatus := s.submittedStatus.set s.currentIndex true }

/-- `handleNext`: advance, clamped below the last index. -/
def handleNext (s : QState) : QState :=
  if s.currentIndex < s.activeQuestions.length - 1 then
    { s with currentIndex := s.currentIndex + 1 }
  else s

/-- `handlePrev`: retreat, clamped at zero. -/
def handlePrev (s : QState) : QState :=
  if 0 < s.currentIndex then { s with currentIndex := s.currentIndex - 1 }
  else s

/-- `jumpToQuestion`: set the index directly (every caller passes an index of
a rendered navigation dot, hence in range). -/
def jumpToQuestion (i : Nat) (s : QState) : QState :=
  { s with currentIndex := i }

/-- `finishQuiz`: lock every question and show results. -/
def finishQuiz (s : QState) : QState :=
  { s with submittedStatus := List.replicate s.activeQuestions.length true
           isFinished := true }

/-- One second of the countdown effect: inactive when finished or untimed;
at 1 or less, finish and pin the clock to 0; otherwise decrement. -/
def tickTimer (s : QState) : QState :=
  if s.isFinished ∨ ¬ s.config.timerEnabled then s
  else if s.timeLeft ≤ 1 then { finishQuiz s with timeLeft := 0 }
  else { s with timeLeft := s.timeLeft - 1 }

/-- `handleRetakeAll`: reset to a fresh run of the full original set and
re-arm the save guard. -/
def handleRetakeAll (s : QState) : QState :=
  { s with activeQuestions := s.initialQuestions
           userAnswers := List.replicate s.initialQuestions.length none
           submittedStatus := List.replicate s.initialQuestions.length false
           timeLeft := s.initialQuestions.length * 90
           currentIndex := 0
           isFinished := false
           hasSaved := false }

/-- The index scan of `handleRetakeWrong`: map each answer to its index when
it differs from the correct option, to the sentinel `-1` otherwise.  The
source iterates `userAnswers` reading `activeQuestions[idx]`; under the
session's length invariant this is the zip used here. -/
def wrongIndicesGo : Nat → List (Option Nat × Question) → List Int
  | _, [] => []
  | idx, p :: rest =>
    (if p.1 ≠ some p.2.answerIndex then (idx : Int) else -1) ::
      wrongIndicesGo (idx + 1) rest

/-- The `wrongIndices` array of `handleRetakeWrong` (sentinels filtered out). -/
def wrongIndices (s : QState) : List Int :=
  (wrongIndicesGo 0 (s.userAnswers.zip s.activeQuestions)).filter
    (fun x => x ≠ -1)

/-- `handleRetakeWrong`: if no answer is wrong, return without touching any
state; otherwise narrow `activeQuestions` to the wrong subset (the
`wrongIndices` looked up in `activeQuestions`, order preserved), reset the
per-question arrays to the subset's size, and consume the save guard. -/
def handleRetakeWrong (s : QState) : QState :=
  if (wrongIndices s).length = 0 then s
  else
    let wq := (wrongIndices s).filterMap (fun i => s.activeQuestions.get? i.toNat)
    { s with activeQuestions := wq
             userAnswers := List.replicate wq.length none
             submittedStatus := List.replicate wq.length false
             timeLeft := wq.length * 90
             currentIndex := 0
             isFinished := false
             hasSaved := true }

/-- The save-on-finish effect: when finished, not yet saved, and the run is a
full run (`activeQuestions` as long as the `questions` prop), consume the
guard and invoke `onComplete` once (counted in `persistCount`).  The
`onComplete` callback is taken as provided, as the application shell does. -/
def saveEffect (s : QState) : QState :=
  if s.isFinished ∧ ¬ s.hasSaved ∧
      s.activeQuestions.length = s.initialQuestions.length then
    { s with hasSaved := true, persistCount := s.persistCount + 1 }
  else s

/-- The user-visible operations of the session state machine. -/
inductive Op where
  | selectOption (i : Nat)
  | submitCurrent
  | next
  | prev
  | jumpTo (i : Nat)
  | finishOp
  | tickOp
  | retakeAll
  | retakeWrong
deriving DecidableEq

/-- Dispatch an operation to its handler. -/
def applyOp : Op → QState → QState
  | Op.selectOption i, s => handleOptionSelect i s
  | Op.submitCurrent, s => handleSubmitQuestion s
  | Op.next, s => handleNext s
  | Op.prev, s => handlePrev s
  | Op.jumpTo i, s => jumpToQuestion i s
  | Op.finishOp, s => finishQuiz s
  | Op.tickOp, s => tickTimer s
  | Op.retakeAll, s => handleRetakeAll s
  | Op.retakeWrong, s => handleRetakeWrong s

/-- One event-loop round: the handler runs to completion, then the
save-on-finish effect observes the new state. -/
def step (op : Op) (s : QState) : QState := saveEffect (applyOp op s)

/-- Run a sequence of operations. -/
def run (ops : List Op) (s : QState) : QState :=
  ops.foldl (fun t op => step op t) s

/-- Precondition of an operation: `jumpTo` only receives indices of rendered
navigation dots; everything else is unconditional. -/
def opOK : Op → QState → Prop
  | Op.jumpTo i, s => i < s.activeQuestions.length
  | _, _ => True

/-- The session states reachable from a fresh or restored mount.  A restored
mount replays a persisted record, whose answers were saved together with its
questions and therefore have matching length. -/
inductive Reachable : QState → Prop where
  | startF (qs : List Question) (config : QuizConfig) :
      Reachable (startFresh qs config)
  | startR (qs : List Question) (config : QuizConfig)
      (ans : List (Option Nat)) (h : ans.length = qs.length) :
      Reachable (startRestored qs config ans)
  | stepOk (s : QState) (op : Op) (hs : Reachable s) (hop : opOK op s) :
      Reachable (step op s)

/-- The six in-session operations of the monotonicity claim (no retake, no
timer tick). -/
def sessionOp : Op → Prop
  | Op.selectOption _ => True
  | Op.submitCurrent => True
  | Op.next => True
  | Op.prev => True
  | Op.jumpTo _ => True
  | Op.finishOp => True
  | _ => False

end QuizGame

namespace App

/-- The quiz step of the application shell. -/
inductive QuizStep where
  | setup
  | playing
deriving DecidableEq

/-- The quiz-related state of the application shell, together with the
user-facing alert channel (`alert(...)` is modelled as setting the message). -/
structure AppQuizState where
  quizLoading : Bool
  quizConfig : Option QuizConfig
  restoredUserAnswers : Option (List (Option Nat))
  questions : List Question
  quizStep : QuizStep
  alertMessage : Option String
deriving DecidableEq

/-- The quiz-generation service boundary: it either yields the parsed
question array or fails; every internal failure is caught and rethrown as the
single generic message. -/
def generateQuiz (parsed : Except String (List Question)) :
    Except String (List Question) :=
  match parsed with
  | Except.ok qs => Except.ok qs
  | Except.error _ =>
    Except.error ("Failed to generate quiz. Please try again.")

/-- `handleStartQuiz` of the application shell, as a function of the outcome
of the awaited `generateQuiz` call: set the loading flag and the config, then
on success install the questions and enter the playing step, on failure alert
the user; either way the `finally` clause clears the loading flag. -/
def handleStartQuiz (s : AppQuizState) (config : QuizConfig)
    (outcome : Except String (List Question)) : AppQuizState :=
  let s1 := { s with quizLoading := true
                     quizConfig := some config
                     restoredUserAnswers := none }
  match outcome with
  | Except.ok gq =>
    { s1 with questions := gq, quizStep := QuizStep.playing,
              quizLoading := false }
  | Except.error _ =>
    { s1 with alertMessage := some ("Failed to generate quiz. Please try again."),
              quizLoading := false }

end App

namespace QuizGame

/-- Specification-side score, following the spec's words: the number of
indices `i` at which `userAnswers[i]` equals
`activeQuestions[i].correctOptionIndex`.  Stated over `List.range` so that it
is literally a count of indices; compared against `calculateScore` below. -/
def specScore (qs : List Question) (ans : List (Option Nat)) : Nat :=
  ((List.range qs.length).filter
    (fun i => decide (ans.getD i none = some ((qs.getD i default).answerIndex)))).length

/-- Folding the score accumulator starting from `n` counts the matching
pairs on top of `n`. -/
lemma score_foldl_eq_countP (l : List (Option Nat × Question)) (n : Nat) :
    l.foldl (fun acc p => if p.1 = some p.2.answerIndex then acc + 1 else acc) n
      = n + l.countP (fun p => decide (p.1 = some p.2.answerIndex)) := by
  induction l generalizing n with
  | nil => simp
  | cons a t ih =>
    simp only [List.foldl_cons, List.countP_cons, ih]
    split_ifs with h <;> simp_all <;> omega

/-- Unfolding `specScore` over a cons on both sides. -/
lemma specScore_cons (q : Question) (qt : List Question) (a : Option Nat)
    (at' : List (Option Nat)) :
    specScore (q :: qt) (a :: at')
      = (if a = some q.answerIndex then 1 else 0) + specScore qt at' := by
  have hcong : ∀ i ∈ List.range qt.length,
      ((fun i =>
          decide ((a :: at').getD i none
            = some (((q :: qt).getD i default).answerIndex))) ∘ Nat.succ) i
        = (fun i =>
            decide (at'.getD i none
              = some ((qt.getD i default).answerIndex))) i := by
    intro i _
    simp [Function.comp, List.getD_cons_succ]
  simp only [specScore, List.length_cons, List.range_succ_eq_map,
    List.filter_cons, List.filter_map, List.length_map, List.getD_cons_zero]
  rw [List.filter_congr hcong]
  split_ifs with hx <;> simp_all [List.length_map] <;> omega

/-- Counting matching pairs of the zip equals counting matching indices of
the range, when the two lists have equal length. -/
lemma countP_zip_eq_specScore (qs : List Question) (ans : List (Option Nat))
    (h : ans.length = qs.length) :
    (ans.zip qs).countP (fun p => decide (p.1 = some p.2.answerIndex))
      = specScore qs ans := by
  induction qs generalizing ans with
  | nil =>
    cases ans with
    | nil => simp [specScore]
    | cons a t => simp at h
  | cons q qt ih =>
    cases ans with
    | nil => simp at h
    | cons a at' =>
      have h' : at'.length = qt.length := by simpa using h
      rw [specScore_cons]
      simp only [List.zip_cons_cons, List.countP_cons, ih at' h']
      split_ifs with hx <;> simp_all <;> omega

/-- Demonstration question set used by the concrete witnesses. -/
def demoQuestions : List Question :=
  [⟨("2+2?"), [("3"), ("4")], 1, ("basic addition")⟩,
   ⟨("3*3?"), [("9"), ("6")], 0, ("basic product")⟩,
   ⟨("10/2?"), [("2"), ("5")], 1, ("basic quotient")⟩]

/-- Demonstration answer list: first correct, second wrong, third unanswered. -/
def demoAnswers : List (Option Nat) := [some 1, some 1, none]

/-- Demonstration configuration. -/
def demoConfig : QuizConfig :=
  ⟨("Arithmetic"), 3, ExamStyle.Custom, Difficulty.Medium, false⟩

/-- The save effect never changes the three session arrays. -/
lemma saveEffect_arrays (s : QState) :
    (saveEffect s).userAnswers = s.userAnswers ∧
    (saveEffect s).submittedStatus = s.submittedStatus ∧
    (saveEffect s).activeQuestions = s.activeQuestions := by
  unfold saveEffect
  split <;> exact ⟨rfl, rfl, rfl⟩

/-- Every handler preserves the equal-length invariant of the three arrays. -/
lemma lenInv_applyOp (op : Op) (s : QState)
    (h1 : s.userAnswers.length = s.activeQuestions.length)
    (h2 : s.submittedStatus.length = s.activeQuestions.length) :
    (applyOp op s).userAnswers.length = (applyOp op s).activeQuestions.length ∧
    (applyOp op s).submittedStatus.length = (applyOp op s).activeQuestions.length := by
  cases op <;>
    simp only [applyOp, handleOptionSelect, handleSubmitQuestion, handleNext,
      handlePrev, jumpToQuestion, finishQuiz, tickTimer, handleRetakeAll,
      handleRetakeWrong] <;>
    (try split_ifs) <;>
    simp_all [List.length_set, List.length_replicate]

/-- One event-loop round preserves the equal-length invariant. -/
lemma lenInv_step (op : Op) (s : QState)
    (h1 : s.userAnswers.length = s.activeQuestions.length)
    (h2 : s.submittedStatus.length = s.activeQuestions.length) :
    (step op s).userAnswers.length = (step op s).activeQuestions.length ∧
    (step op s).submittedStatus.length = (step op s).activeQuestions.length := by
  have h := lenInv_applyOp op s h1 h2
  have ha := saveEffect_arrays (applyOp op s)
  unfold step
  rw [ha.1, ha.2.1, ha.2.2]
  exact h

/-- No handler touches the persist counter (only the save effect does). -/
lemma applyOp_persistCount (op : Op) (s : QState) :
    (applyOp op s).persistCount = s.persistCount := by
  cases op <;>
    simp only [applyOp, handleOptionSelect, handleSubmitQuestion, handleNext,
      handlePrev, jumpToQuestion, finishQuiz, tickTimer, handleRetakeAll,
      handleRetakeWrong] <;>
    (try split_ifs) <;> rfl

/-- Every handler except `retakeAll` keeps a consumed save guard consumed. -/
lemma applyOp_hasSaved (op : Op) (s : QState) (hop : op ≠ Op.retakeAll)
    (h : s.hasSaved = true) : (applyOp op s).hasSaved = true := by
  cases op <;>
    first
      | exact absurd rfl hop
      | (simp only [applyOp, handleOptionSelect, handleSubmitQuestion,
          handleNext, handlePrev, jumpToQuestion, finishQuiz, tickTimer,
          handleRetakeWrong]
         (try split_ifs) <;> (first | exact h | rfl))

/-- With the guard consumed, the save effect is the identity. -/
lemma saveEffect_of_saved (s : QState) (h : s.hasSaved = true) :
    saveEffect s = s := by
  unfold saveEffect
  rw [if_neg]
  rintro ⟨-, h2, -⟩
  exact h2 h

/-- Unfolding one round of `run`. -/
lemma run_cons (op : Op) (ops : List Op) (s : QState) :
    run (op :: ops) s = run ops (step op s) := rfl

/-- With the guard consumed and no `retakeAll` in the sequence, the guard
stays consumed and the persist counter never moves. -/
lemma run_guard (ops : List Op) (s : QState) (h : s.hasSaved = true)
    (hops : Op.retakeAll ∉ ops) :
    (run ops s).hasSaved = true ∧ (run ops s).persistCount = s.persistCount := by
  induction ops generalizing s with
  | nil => exact ⟨h, rfl⟩
  | cons op t ih =>
    have hop : op ≠ Op.retakeAll := by
      intro e
      exact hops (by simp [e])
    have ht : Op.retakeAll ∉ t := by
      intro m
      exact hops (by simp [m])
    have h1 : (applyOp op s).hasSaved = true := applyOp_hasSaved op s hop h
    have hstep : step op s = applyOp op s := saveEffect_of_saved _ h1
    have hrec := ih (s := step op s) (by rw [hstep]; exact h1) ht
    rw [run_cons]
    exact ⟨hrec.1, by rw [hrec.2, hstep, applyOp_persistCount]⟩

/-- If every zipped pair is answered correctly, the wrong-index scan yields
only sentinels, which the filter removes. -/
lemma wrongIndicesGo_all_correct (l : List (Option Nat × Question)) (n : Nat)
    (h : ∀ p ∈ l, p.1 = some p.2.answerIndex) :
    (wrongIndicesGo n l).filter (fun x => x ≠ -1) = [] := by
  induction l generalizing n with
  | nil => rfl
  | cons p t ih =>
    have hp := h p (by simp)
    have ht := ih (n + 1) (fun q hq => h q (List.mem_cons_of_mem _ hq))
    have hcond : ¬ (p.1 ≠ some p.2.answerIndex) := by simp [hp]
    simp only [wrongIndicesGo, if_neg hcond]
    rw [List.filter_cons, if_neg (by decide)]
    exact ht

/-- Pointwise correctness in indexed form implies it on the zip. -/
lemma zip_all_correct_of_indexed (ans : List (Option Nat))
    (qs : List Question) (hlen : ans.length = qs.length)
    (h : ∀ i, i < ans.length →
      ans.getD i none = some ((qs.getD i default).answerIndex)) :
    ∀ p ∈ ans.zip qs, p.1 = some p.2.answerIndex := by
  induction ans generalizing qs with
  | nil => simp
  | cons a t ih =>
    cases qs with
    | nil => simp at hlen
    | cons q qt =>
      have hlen' : t.length = qt.length := by simpa using hlen
      intro p hp
      rw [List.zip_cons_cons] at hp
      rcases List.mem_cons.mp hp with h0 | h1
      · subst h0
        have := h 0 (by simp)
        simpa using this
      · exact ih qt hlen'
          (fun i hi => by
            have := h (i + 1) (by simpa using Nat.succ_lt_succ hi)
            simpa using this) p h1

/-- On lists of equal length, the replicate-of-`true` default read is `true`
exactly below the length. -/
lemma replicate_true_getD {n i : Nat} (h : i < n) :
    (List.replicate n true).getD i false = true := by
  induction n generalizing i with
  | zero => omega
  | succ m ih =>
    cases i with
    | zero => rfl
    | succ j =>
      have : j < m := by omega
      simpa [List.replicate] using ih this

/-- Setting any position to `true` preserves a `true` read elsewhere. -/
lemma set_true_getD {l : List Bool} {n i : Nat}
    (h : l.getD i false = true) : (l.set n true).getD i false = true := by
  induction l generalizing n i with
  | nil => simpa using h
  | cons b t ih =>
    cases n with
    | zero =>
      cases i with
      | zero => rfl
      | succ j => simpa using h
    | succ m =>
      cases i with
      | zero => simpa using h
      | succ j =>
        have := ih (n := m) (i := j) (by simpa using h)
        simpa using this

/-- A defaulted-to-`false` read of `true` implies the index is in range. -/
lemma getD_true_lt {l : List Bool} {i : Nat} (h : l.getD i false = true) :
    i < l.length := by
  by_contra hg
  rw [List.getD_eq_default l false (by omega)] at h
  exact absurd h (by simp)

/-- A mid-session demonstration state: question one submitted correct,
question two answered but unsubmitted, question three unanswered. -/
def demoMidState : QState :=
  { initialQuestions := demoQuestions
    config := demoConfig
    activeQuestions := demoQuestions
    currentIndex := 1
    userAnswers := [some 1, some 0, none]
    submittedStatus := [true, false, false]
    timeLeft := 100
    isFinished := false
    hasSaved := false
    persistCount := 0 }

/-- A finished demonstration state in which every question was answered
correctly and the record was already persisted. -/
def demoStateAllCorrect : QState :=
  { initialQuestions := demoQuestions
    config := demoConfig
    activeQuestions := demoQuestions
    currentIndex := 2
    userAnswers := [some 1, some 0, some 1]
    submittedStatus := [true, true, true]
    timeLeft := 0
    isFinished := true
    hasSaved := true
    persistCount := 1 }

end QuizGame

/-- C1: for a session whose `userAnswers` and `activeQuestions` have equal
length, `calculateScore` equals the number of indices at which the answer
equals the question's `answerIndex`, and an unanswered (`none`) slot never
satisfies that equality. -/
theorem c1_score_counts_correct (qs : List Question) (ans : List (Option Nat))
    (h : ans.length = qs.length) :
    QuizGame.calculateScore qs ans = QuizGame.specScore qs ans ∧
    ∀ i, i < qs.length → ans.getD i none = none →
      ¬ (ans.getD i none = some ((qs.getD i default).answerIndex)) := by
  constructor
  · unfold QuizGame.calculateScore
    rw [QuizGame.score_foldl_eq_countP, Nat.zero_add]
    exact QuizGame.countP_zip_eq_specScore qs ans h
  · intro i hi hnone
    rw [hnone]
    simp

/-- Witness for C1 at a concrete three-question session (one correct, one
wrong, one unanswered). -/
theorem c1_witness :
    QuizGame.demoAnswers.length = QuizGame.demoQuestions.length ∧
    QuizGame.calculateScore QuizGame.demoQuestions QuizGame.demoAnswers
      = QuizGame.specScore QuizGame.demoQuestions QuizGame.demoAnswers :=
  ⟨by decide,
   (c1_score_counts_correct QuizGame.demoQuestions QuizGame.demoAnswers
      (by decide)).1⟩

/-- C2: after `retakeWrong` narrows the session to a nonempty wrong subset,
no sequence of subsequent operations (any operation except `retakeAll`,
which abandons the subset run) ever invokes the persist step again: the
persist counter never moves, because the guard is pre-consumed. -/
theorem c2_retake_wrong_never_persists (s : QuizGame.QState)
    (ops : List QuizGame.Op) (hw : QuizGame.wrongIndices s ≠ [])
    (hops : QuizGame.Op.retakeAll ∉ ops) :
    (QuizGame.run ops (QuizGame.step QuizGame.Op.retakeWrong s)).persistCount
      = s.persistCount := by
  have hw' : ¬ (QuizGame.wrongIndices s).length = 0 := by
    simpa [List.length_eq_zero] using hw
  have hR1 : (QuizGame.handleRetakeWrong s).hasSaved = true := by
    unfold QuizGame.handleRetakeWrong
    rw [if_neg hw']
  have hR2 : (QuizGame.handleRetakeWrong s).persistCount = s.persistCount := by
    unfold QuizGame.handleRetakeWrong
    rw [if_neg hw']
  have hstep : QuizGame.step QuizGame.Op.retakeWrong s
      = QuizGame.handleRetakeWrong s :=
    QuizGame.saveEffect_of_saved _ hR1
  rw [hstep]
  have hg := QuizGame.run_guard ops _ hR1 hops
  rw [hg.2, hR2]

/-- Witness for C2: the mid-session demonstration state has a wrong answer;
finishing, selecting and finishing again after the retake never persists. -/
theorem c2_witness :
    QuizGame.wrongIndices QuizGame.demoMidState ≠ [] ∧
    (QuizGame.run
        [QuizGame.Op.finishOp, QuizGame.Op.selectOption 0, QuizGame.Op.finishOp]
        (QuizGame.step QuizGame.Op.retakeWrong QuizGame.demoMidState)).persistCount
      = QuizGame.demoMidState.persistCount :=
  ⟨by decide, c2_retake_wrong_never_persists _ _ (by decide) (by decide)⟩

/-- C3: in every reachable session state, the three arrays `userAnswers`,
`submittedStatus` and `activeQuestions` have equal length. -/
theorem c3_length_invariant (s : QuizGame.QState) (h : QuizGame.Reachable s) :
    s.userAnswers.length = s.activeQuestions.length ∧
    s.submittedStatus.length = s.activeQuestions.length := by
  induction h with
  | startF qs config => simp [QuizGame.startFresh]
  | startR qs config ans hl => simp [QuizGame.startRestored, hl]
  | stepOk s op hs hop ih => exact QuizGame.lenInv_step op s ih.1 ih.2

/-- Witness for C3 at a concrete reachable state: a fresh session after one
option selection. -/
theorem c3_witness :
    (QuizGame.step (QuizGame.Op.selectOption 1)
        (QuizGame.startFresh QuizGame.demoQuestions QuizGame.demoConfig)).userAnswers.length
      = (QuizGame.step (QuizGame.Op.selectOption 1)
          (QuizGame.startFresh QuizGame.demoQuestions QuizGame.demoConfig)).activeQuestions.length ∧
    (QuizGame.step (QuizGame.Op.selectOption 1)
        (QuizGame.startFresh QuizGame.demoQuestions QuizGame.demoConfig)).submittedStatus.length
      = (QuizGame.step (QuizGame.Op.selectOption 1)
          (QuizGame.startFresh QuizGame.demoQuestions QuizGame.demoConfig)).activeQuestions.length :=
  c3_length_invariant _
    (QuizGame.Reachable.stepOk _ _
      (QuizGame.Reachable.startF QuizGame.demoQuestions QuizGame.demoConfig)
      True.intro)

/-- C4: within one session lifetime, a submitted flag never reverts: if
`submittedStatus[i]` reads `true`, it still reads `true` after any of the six
in-session operations (select, submit, advance, retreat, jump, finish). -/
theorem c4_submitted_monotonic (s : QuizGame.QState) (op : QuizGame.Op)
    (i : Nat) (hop : QuizGame.sessionOp op)
    (hlen : s.submittedStatus.length = s.activeQuestions.length)
    (hi : s.submittedStatus.getD i false = true) :
    (QuizGame.step op s).submittedStatus.getD i false = true := by
  have hsave := (QuizGame.saveEffect_arrays (QuizGame.applyOp op s)).2.1
  unfold QuizGame.step
  rw [hsave]
  cases op with
  | selectOption j =>
    simp only [QuizGame.applyOp, QuizGame.handleOptionSelect]
    split_ifs <;> exact hi
  | submitCurrent =>
    simp only [QuizGame.applyOp, QuizGame.handleSubmitQuestion]
    split_ifs
    · exact hi
    · exact QuizGame.set_true_getD hi
  | next =>
    simp only [QuizGame.applyOp, QuizGame.handleNext]
    split_ifs <;> exact hi
  | prev =>
    simp only [QuizGame.applyOp, QuizGame.handlePrev]
    split_ifs <;> exact hi
  | jumpTo j => exact hi
  | finishOp =>
    simp only [QuizGame.applyOp, QuizGame.finishQuiz]
    have hilt : i < s.submittedStatus.length := QuizGame.getD_true_lt hi
    exact QuizGame.replicate_true_getD (by omega)
  | tickOp => exact hop.elim
  | retakeAll => exact hop.elim
  | retakeWrong => exact hop.elim

/-- Witness for C4: finishing the mid-session demonstration state keeps the
already-submitted first question submitted. -/
theorem c4_witness :
    (QuizGame.step QuizGame.Op.finishOp QuizGame.demoMidState).submittedStatus.getD 0 false = true :=
  c4_submitted_monotonic QuizGame.demoMidState QuizGame.Op.finishOp 0
    True.intro (by decide) (by decide)

/-- C5: both text normalizers satisfy the spec's two example equations:
the dollar-delimited `x^{2}+y_{1}` becomes `x²+y₁`, and
`\frac{1}{2} \times \pi` becomes `(1/2) × π`. -/
theorem c5_normalizer_examples :
    QuizGame.cleanMathAndFormat ("$x^\x7b2\x7d+y_\x7b1\x7d$") = ("x²+y₁") ∧
    QuizGame.cleanMathAndFormat ("\\frac\x7b1\x7d\x7b2\x7d \\times \\pi")
      = ("(1/2) × π") ∧
    ResultDisplay.cleanMathAndFormat ("$x^\x7b2\x7d+y_\x7b1\x7d$") = ("x²+y₁") ∧
    ResultDisplay.cleanMathAndFormat ("\\frac\x7b1\x7d\x7b2\x7d \\times \\pi")
      = ("(1/2) × π") :=
  ⟨by decide, by decide, by decide, by decide⟩

/-- C6 counterexample: `parseInline` on the claimed input does not yield only
the five claimed spans — the capturing split also emits an empty segment
before a match at the start of the string and after a match at its end, and
those become (empty) plain spans. -/
theorem c6_counterexample :
    ResultDisplay.parseInline ("**bold** and *italic* [1, 2]") ≠
      [ResultDisplay.Span.strong ("bold"), ResultDisplay.Span.plain (" and "),
       ResultDisplay.Span.em ("italic"), ResultDisplay.Span.plain (" "),
       ResultDisplay.Span.citation ("[1, 2]")] := by decide

/-- C6 (amended): `parseInline` on the claimed input yields exactly the five
claimed spans in the claimed order, with one additional empty plain span at
each boundary where a match abuts the string boundary. -/
theorem c6_parse_inline_spans :
    ResultDisplay.parseInline ("**bold** and *italic* [1, 2]") =
      [ResultDisplay.Span.plain (""), ResultDisplay.Span.strong ("bold"),
       ResultDisplay.Span.plain (" and "), ResultDisplay.Span.em ("italic"),
       ResultDisplay.Span.plain (" "), ResultDisplay.Span.citation ("[1, 2]"),
       ResultDisplay.Span.plain ("")] := by decide

set_option maxRecDepth 4096 in
/-- C7: `renderContent` on `"# Title\n\n- a\n- b\n1. x"` yields exactly the
heading, the interior line break, the two-item unordered list, and the
one-item ordered list — the ordered marker flushes the pending unordered
list. -/
theorem c7_render_blocks_example :
    ResultDisplay.renderContent ("# Title\n\n- a\n- b\n1. x") =
      [ResultDisplay.Block.heading 1 [ResultDisplay.Span.plain ("Title")],
       ResultDisplay.Block.lineBreak,
       ResultDisplay.Block.listBlock false
         [[ResultDisplay.Span.plain ("a")], [ResultDisplay.Span.plain ("b")]],
       ResultDisplay.Block.listBlock true
         [[ResultDisplay.Span.plain ("x")]]] := by decide

/-- C8: `retakeWrong` on a session state in which every answer equals the
corresponding question's `answerIndex` is a no-op: the entire state is
returned unchanged. -/
theorem c8_retake_wrong_noop (s : QuizGame.QState)
    (hlen : s.userAnswers.length = s.activeQuestions.length)
    (h : ∀ i, i < s.userAnswers.length →
      s.userAnswers.getD i none
        = some ((s.activeQuestions.getD i default).answerIndex)) :
    QuizGame.handleRetakeWrong s = s := by
  have hz := QuizGame.zip_all_correct_of_indexed s.userAnswers
    s.activeQuestions hlen h
  have hw : QuizGame.wrongIndices s = [] := by
    unfold QuizGame.wrongIndices
    exact QuizGame.wrongIndicesGo_all_correct _ 0 hz
  unfold QuizGame.handleRetakeWrong
  rw [hw]
  simp

/-- Witness for C8: retake-wrong on the all-correct demonstration state
returns it unchanged. -/
theorem c8_witness :
    QuizGame.handleRetakeWrong QuizGame.demoStateAllCorrect
      = QuizGame.demoStateAllCorrect :=
  c8_retake_wrong_noop _ (by decide) (by decide)

/-- C9: when quiz generation fails, `handleStartQuiz` surfaces the single
generic alert message, clears the loading flag, and leaves the questions
list and the quiz step exactly as they were before the call. -/
theorem c9_quiz_failure_rollback (s : App.AppQuizState) (config : QuizConfig)
    (e : String) :
    (App.handleStartQuiz s config (App.generateQuiz (Except.error e))).questions
      = s.questions ∧
    (App.handleStartQuiz s config (App.generateQuiz (Except.error e))).quizStep
      = s.quizStep ∧
    (App.handleStartQuiz s config (App.generateQuiz (Except.error e))).quizLoading
      = false ∧
    (App.handleStartQuiz s config (App.generateQuiz (Except.error e))).alertMessage
      = some ("Failed to generate quiz. Please try again.") :=
  ⟨rfl, rfl, rfl, rfl⟩

/-- C10: a session restored from a history record starts with every question
submitted and the session finished, and no sequence of operations that does
not include `retakeAll` ever invokes the persist step: the guard is pre-set,
so re-opening a stored quiz cannot create a duplicate record. -/
theorem c10_restored_never_persists (qs : List Question) (config : QuizConfig)
    (ans : List (Option Nat)) (ops : List QuizGame.Op)
    (hops : QuizGame.Op.retakeAll ∉ ops) :
    (QuizGame.startRestored qs config ans).submittedStatus
      = List.replicate qs.length true ∧
    (QuizGame.startRestored qs config ans).isFinished = true ∧
    (QuizGame.run ops (QuizGame.startRestored qs config ans)).persistCount = 0 := by
  refine ⟨rfl, rfl, ?_⟩
  exact (QuizGame.run_guard ops (QuizGame.startRestored qs config ans) rfl hops).2

/-- Witness for C10: replaying a restored demonstration session through a
retake-wrong and a finish never persists. -/
theorem c10_witness :
    (QuizGame.run [QuizGame.Op.retakeWrong, QuizGame.Op.finishOp]
        (QuizGame.startRestored QuizGame.demoQuestions QuizGame.demoConfig
          QuizGame.demoAnswers)).persistCount = 0 :=
  (c10_restored_never_persists QuizGame.demoQuestions QuizGame.demoConfig
    QuizGame.demoAnswers _ (by decide)).2.2
